import Mathlib

/-!
Verification of the detection engine of the npm-security-scanner repository.

The development shallowly embeds, faithfully to the JavaScript source:
  * the regex-based pattern matcher (`src/utils/patternMatcher.js`, the
    whitelist-aware version): static signature rules, dynamically generated
    IOC rules, the suspicious-address membership check, whitelist resolution
    (`isWhitelisted`, `isVersionWhitelisted`, `extractPackageInfoFromPath`)
    and the per-file loop of `scanJavaScriptFiles`;
  * the package scanner (`packageScanner.js`): `scanPackageFiles`,
    `isVulnerableVersion`;
  * the worker unit (`workerScanner.js`): `scanProject`;
  * the parallel orchestrator (`parallelScanner.js`) as a transition system:
    `assignWork`, `handleWorkerResult`, `handleWorkerError`,
    `handleWorkerTimeout`, `handleWorkerExit`, and the re-entrancy guard of
    `scanProjects`.

Strings are modelled as `List Char` (`Str`).  JavaScript regexes are
modelled by a small executable backtracking engine; every Kleene star that
occurs in the source patterns has a single-character body, which the engine
exploits to stay structurally recursive.
-/

namespace NpmScan

/-- JavaScript strings are modelled as lists of characters. -/
abbrev Str := List Char

/-- Coerce a Lean string literal to the model string type. -/
def lstr (x : String) : Str := x.data

/-- JS `String.prototype.includes` restricted to a needle without holes:
`hay.includes(needle)` = some contiguous infix equals `needle`. -/
def strIncludes (hay needle : Str) : Bool :=
  (List.range (hay.length + 1)).any (fun i => (hay.drop i).take needle.length == needle)

/-- Index of the first occurrence of `needle` in `hay` (JS `indexOf`),
`none` for JS `-1`. -/
def strIndexOf (hay needle : Str) : Option Nat :=
  (List.range (hay.length + 1)).find? (fun i => (hay.drop i).take needle.length == needle)

/-- JS `String.prototype.split` on a single separator character. -/
def jsSplit (s : Str) (sep : Char) : List Str :=
  match s with
  | [] => [[]]
  | c :: t =>
    match jsSplit t sep with
    | [] => [[]]
    | h :: r => if c = sep then [] :: h :: r else (c :: h) :: r

/-- JS `String.prototype.startsWith`. -/
def strStartsWith (s pre : Str) : Bool := s.take pre.length == pre

/-- JS `String.prototype.toLowerCase`, ASCII fragment. -/
def strToLower (s : Str) : Str := s.map Char.toLower

/-- Node `path.basename` for `/`-separated paths that do not end in `/`:
the last path segment (empty segments are skipped, as Node does). -/
def jsBasename (p : Str) : Str :=
  (jsSplit p '/').foldl (fun acc seg => if seg = [] then acc else seg) []

/-- Node `path.join a b` for the normalized inputs used here
(absolute `a`, relative `b`). -/
def jsJoin (a b : Str) : Str := a ++ ('/' :: b)

/-- Node `path.relative from to` for normalized absolute segment paths:
drop the common segment prefix, then one `..` per remaining `from`
segment followed by the remaining `to` segments. -/
def jsPathRelative (src dst : Str) : Str :=
  let fp := (jsSplit src '/').filter (· ≠ [])
  let tp := (jsSplit dst '/').filter (· ≠ [])
  let common := (List.range (min fp.length tp.length)).foldl
    (fun acc i => if acc = i ∧ fp.get? i = tp.get? i then i + 1 else acc) 0
  let parts := (fp.drop common).map (fun _ => lstr "..") ++ tp.drop common
  match parts with
  | [] => []
  | h :: t => t.foldl (fun acc seg => acc ++ ('/' :: seg)) h

/-! ## A small regex engine

Character specifications and regexes, with JS `i`-flag handling.  Kleene
stars in the embedded patterns always have a single-character body, so the
AST restricts `star` to a `CSpec`; `{n}`, `+` and `?` are derived forms. -/

/-- A single-character pattern: a (possibly negated) union of ranges, or
the JS dot (any character except line terminators). -/
inductive CSpec where
  | cls (ranges : List (Char × Char)) (neg : Bool)
  | dot
deriving DecidableEq, Repr

/-- Regexes: empty word, one character, concatenation, ordered
alternation, Kleene star over a character class (greedy or lazy). -/
inductive Rx where
  | eps
  | ch (sp : CSpec)
  | seq (a b : Rx)
  | alt (a b : Rx)
  | star (sp : CSpec) (lazy : Bool)
deriving DecidableEq, Repr

/-- Does character `c` match `sp`?  `ci` models the JS `i` flag:
match is also attempted on the lower- and upper-cased character. -/
def cmatch (ci : Bool) (sp : CSpec) (c : Char) : Bool :=
  match sp with
  | .dot => c ≠ '\n' ∧ c ≠ '\r'
  | .cls ranges neg =>
    let inR := fun (x : Char) => ranges.any (fun p => decide (p.1 ≤ x) && decide (x ≤ p.2))
    let hit := inR c || (ci && (inR (Char.toLower c) || inR (Char.toUpper c)))
    if neg then !hit else hit

/-- Length of the maximal run of characters at the head of `s` that
match `sp`. -/
def leadRun (ci : Bool) (sp : CSpec) : Str → Nat
  | [] => 0
  | c :: t => if cmatch ci sp c then leadRun ci sp t + 1 else 0

/-- Backtracking matcher in continuation style.  `matRx ci r s k` tries to
match a prefix of `s` against `r` and calls `k` on the rest; alternatives
are tried left to right, greedy stars longest-first, lazy stars
shortest-first (JS backtracking order). -/
def matRx (ci : Bool) : Rx → Str → (Str → Option Str) → Option Str
  | .eps, s, k => k s
  | .ch sp, s, k =>
    match s with
    | [] => none
    | c :: t => if cmatch ci sp c then k t else none
  | .seq a b, s, k => matRx ci a s (fun t => matRx ci b t k)
  | .alt a b, s, k =>
    match matRx ci a s k with
    | some r => some r
    | none => matRx ci b s k
  | .star sp lz, s, k =>
    let m := leadRun ci sp s
    let cands := (List.range (m + 1)).map (fun i => s.drop i)
    (if lz then cands else cands.reverse).findSome? k

/-- All matched substrings of a global (`g`-flag) scan over `s`, in order:
at each position try to match, on success record the matched text and
resume after it, on failure advance one character (fuelled by length). -/
def scanAll (ci : Bool) (r : Rx) : Nat → Str → List Str
  | 0, _ => []
  | fuel + 1, s =>
    match matRx ci r s some with
    | some rest =>
      let len := s.length - rest.length
      if len = 0 then
        match s with
        | [] => []
        | _ :: t => scanAll ci r fuel t
      else s.take len :: scanAll ci r fuel rest
    | none =>
      match s with
      | [] => []
      | _ :: t => scanAll ci r fuel t

/-- JS `content.match(re)` for a `g`-flag regex, as the (possibly empty)
list of matched substrings; the source checks the result for null, which
corresponds to emptiness here. -/
def jsMatchAll (ci : Bool) (r : Rx) (s : Str) : List Str :=
  scanAll ci r (s.length + 1) s

/-- JS `re.test(s)` for a non-global regex: does a match start anywhere? -/
def rxTest (ci : Bool) (r : Rx) (s : Str) : Bool :=
  (List.range (s.length + 1)).any (fun i => (matRx ci r (s.drop i) some).isSome)

/-! Constructors used to transliterate the source regexes. -/

/-- Literal character. -/
def rlit (c : Char) : Rx := .ch (.cls [(c, c)] false)

/-- Literal string (escaped literals in the source become this). -/
def rstr (w : String) : Rx := w.data.foldr (fun c acc => .seq (rlit c) acc) .eps

/-- Concatenation of a list of regexes. -/
def rcat (l : List Rx) : Rx := l.foldr .seq .eps

/-- Ordered alternation `a|b|...`. -/
def ralts : Rx → List Rx → Rx
  | a, [] => a
  | a, b :: t => .alt a (ralts b t)

/-- Regex `r?` (greedy). -/
def ropt (r : Rx) : Rx := .alt r .eps

/-- Repetition `c{n}` for a character class. -/
def rrep (sp : CSpec) : Nat → Rx
  | 0 => .eps
  | n + 1 => .seq (.ch sp) (rrep sp n)

/-- Repetition `c+` for a character class. -/
def rplus (sp : CSpec) : Rx := .seq (.ch sp) (.star sp false)

/-- The dot regex. -/
def rdot : Rx := .ch .dot

/-- Greedy `.*` -/
def rdotStar : Rx := .star .dot false

/-- Lazy `.*?` -/
def rdotStarLazy : Rx := .star .dot true

/-- Class `[a-fA-F0-9]` -/
def hexCls : CSpec := .cls [('a', 'f'), ('A', 'F'), ('0', '9')] false

/-- Class `[a-f0-9-]` -/
def lowHexDashCls : CSpec := .cls [('a', 'f'), ('0', '9'), ('-', '-')] false

/-- Class `\s` (ASCII fragment: space, tab, newline, carriage return, form feed,
vertical tab). -/
def wsCls : CSpec :=
  .cls [(' ', ' '), ('\t', '\t'), ('\n', '\n'), ('\r', '\r'),
        (Char.ofNat 12, Char.ofNat 12), (Char.ofNat 11, Char.ofNat 11)] false

/-- The single-quote character. -/
def sq : Char := Char.ofNat 39

/-- The double-quote character. -/
def dq : Char := Char.ofNat 34

/-- The backtick character. -/
def bq : Char := Char.ofNat 96

/-- The class [\x27"\x60] of quote characters. -/
def quoteCls : CSpec := .cls [(sq, sq), (dq, dq), (bq, bq)] false

/-- The negated class [^\x27"\x60]. -/
def notQuoteCls : CSpec := .cls [(sq, sq), (dq, dq), (bq, bq)] true

/-- The class [\x27"] of string quotes. -/
def sdQuoteCls : CSpec := .cls [(sq, sq), (dq, dq)] false

/-! ## The Pattern Matcher (`src/utils/patternMatcher.js`)

A signature rule: name, regex (with its `i`-flag), severity,
description.  All source rules carry the `g` flag, handled by
`jsMatchAll`. -/

/-- A signature rule of the pattern matcher. -/
structure Pat where
  name : String
  rx : Rx
  ci : Bool
  severity : String
  description : String

/-- Alternation `(GITHUB_TOKEN|NPM_TOKEN|AWS_ACCESS_KEY_ID|AWS_SECRET_ACCESS_KEY)` -/
def tokenEnvAlt : Rx :=
  ralts (rstr "GITHUB_TOKEN")
    [rstr "NPM_TOKEN", rstr "AWS_ACCESS_KEY_ID", rstr "AWS_SECRET_ACCESS_KEY"]

/-- Model of `PatternMatcher.initializePatterns` (the whitelist-aware version):
the 19 static signature rules, transliterated regex by regex. -/
def initializePatterns : List Pat := [
  -- /checkethereumw|window\.ethereum\.(request|send|sendAsync)/gi
  { name := "Ethereum Wallet Hook",
    rx := .alt (rstr "checkethereumw")
      (.seq (rstr "window.ethereum.")
        (ralts (rstr "request") [rstr "send", rstr "sendAsync"])),
    ci := true, severity := "HIGH",
    description := "Detects the main malicious function that hooks into Ethereum wallets" },
  -- /0x[a-fA-F0-9]{40}/g
  { name := "Crypto Address Replacement",
    rx := .seq (rstr "0x") (rrep hexCls 40),
    ci := false, severity := "HIGH",
    description := "Detects hardcoded malicious Ethereum address used for fund theft" },
  -- /new\s+WebSocket\s*\(\s*[q][^q]*[q]\s*\)/gi with q the quote class
  { name := "WebSocket Data Exfiltration",
    rx := rcat [rstr "new", rplus wsCls, rstr "WebSocket", .star wsCls false,
      rlit '(', .star wsCls false, .ch quoteCls, .star notQuoteCls false,
      .ch quoteCls, .star wsCls false, rlit ')'],
    ci := true, severity := "HIGH",
    description := "Detects malicious WebSocket endpoint for data exfiltration" },
  -- /npmjs\.help|npmjs\.org\.help/gi
  { name := "Fake NPM Domain",
    rx := .alt (rstr "npmjs.help") (rstr "npmjs.org.help"),
    ci := true, severity := "MEDIUM",
    description := "Detects fake NPM domain used in phishing attacks" },
  -- /(window\.fetch\s*=|XMLHttpRequest\.prototype\.(open|send)\s*=)/gi
  { name := "Fetch/XMLHttpRequest Override",
    rx := .alt (rcat [rstr "window.fetch", .star wsCls false, rlit '='])
      (rcat [rstr "XMLHttpRequest.prototype.",
        .alt (rstr "open") (rstr "send"), .star wsCls false, rlit '=']),
    ci := true, severity := "HIGH",
    description := "Detects malicious override of network request functions" },
  -- /(originalFetch|originalOpen|originalSend).*\.(fetch|XMLHttpRequest).*replace/gi
  { name := "Malicious Network Interception",
    rx := rcat [ralts (rstr "originalFetch") [rstr "originalOpen", rstr "originalSend"],
      rdotStar, rlit '.', .alt (rstr "fetch") (rstr "XMLHttpRequest"),
      rdotStar, rstr "replace"],
    ci := true, severity := "HIGH",
    description := "Detects malicious network request interception patterns" },
  -- /levenshtein.*distance.*address|address.*levenshtein.*distance.*replace/gi
  { name := "Levenshtein Distance Calculation",
    rx := .alt
      (rcat [rstr "levenshtein", rdotStar, rstr "distance", rdotStar, rstr "address"])
      (rcat [rstr "address", rdotStar, rstr "levenshtein", rdotStar,
        rstr "distance", rdotStar, rstr "replace"]),
    ci := true, severity := "LOW",
    description := "Detects potential address similarity calculation for replacement" },
  -- /bundle\.js.*?(?:trufflehog|webhook\.site|execSync.*trufflehog|
  --    process\.env\.(?:...)|169\.254\.169\.254|metadata\.google\.internal)/gi
  { name := "Malicious Bundle.js Content",
    rx := rcat [rstr "bundle.js", rdotStarLazy,
      ralts (rstr "trufflehog")
        [rstr "webhook.site",
         rcat [rstr "execSync", rdotStar, rstr "trufflehog"],
         .seq (rstr "process.env.") tokenEnvAlt,
         rstr "169.254.169.254",
         rstr "metadata.google.internal"]],
    ci := true, severity := "HIGH",
    description := "Detects bundle.js files containing malicious content like TruffleHog execution, webhook exfiltration, or credential theft" },
  -- /(?:function\s+trufflehogUrl\(\)|function\s+runScanner\(|
  --    const\s*imdsV4\s*=\s*[q2]http:\/\/169\.254\.169\.254[q2]|
  --    const\s*webhookUrl\s*=\s*[q2]https:\/\/webhook\.site\/| with q2 the string-quote class
  --    execSync.*trufflehog|trufflehog.*execSync)/gi
  { name := "Tinycolor Attack Bundle.js Structure",
    rx := ralts (rcat [rstr "function", rplus wsCls, rstr "trufflehogUrl()"])
      [rcat [rstr "function", rplus wsCls, rstr "runScanner("],
       rcat [rstr "const", .star wsCls false, rstr "imdsV4", .star wsCls false,
         rlit '=', .star wsCls false, .ch sdQuoteCls,
         rstr "http://169.254.169.254", .ch sdQuoteCls],
       rcat [rstr "const", .star wsCls false, rstr "webhookUrl", .star wsCls false,
         rlit '=', .star wsCls false, .ch sdQuoteCls,
         rstr "https://webhook.site/"],
       rcat [rstr "execSync", rdotStar, rstr "trufflehog"],
       rcat [rstr "trufflehog", rdotStar, rstr "execSync"]],
    ci := true, severity := "HIGH",
    description := "Detects the specific malicious bundle.js structure from the tinycolor attack with TruffleHog execution and credential theft" },
  -- /trufflehog.*\.(zip|tar\.gz)|github\.com\/trufflesecurity\/trufflehog\/releases\/download/gi
  { name := "TruffleHog Binary Download",
    rx := .alt (rcat [rstr "trufflehog", rdotStar, rlit '.',
        .alt (rstr "zip") (rstr "tar.gz")])
      (rstr "github.com/trufflesecurity/trufflehog/releases/download"),
    ci := true, severity := "HIGH",
    description := "Detects TruffleHog binary downloads used for credential scanning" },
  -- /webhook\.site\/[a-f0-9-]+|hxxps?:\/\/webhook\[\.\]site/gi
  { name := "Webhook Exfiltration Endpoint",
    rx := .alt (.seq (rstr "webhook.site/") (rplus lowHexDashCls))
      (rcat [rstr "hxxp", ropt (rlit 's'), rstr "://webhook[.]site"]),
    ci := true, severity := "HIGH",
    description := "Detects webhook.site endpoints used for data exfiltration" },
  -- /169\.254\.169\.254|metadata\.google\.internal|fd00:ec2::254/gi
  { name := "Cloud Metadata Discovery",
    rx := ralts (rstr "169.254.169.254")
      [rstr "metadata.google.internal", rstr "fd00:ec2::254"],
    ci := true, severity := "HIGH",
    description := "Detects cloud metadata endpoint access for credential theft" },
  -- /\.github\/workflows\/.*\.yml|shai-hulud-workflow/gi
  { name := "GitHub Actions Workflow Creation",
    rx := .alt (rcat [rstr ".github/workflows/", rdotStar, rstr ".yml"])
      (rstr "shai-hulud-workflow"),
    ci := true, severity := "HIGH",
    description := "Detects suspicious GitHub Actions workflow creation" },
  -- /process\.env\.(GITHUB_TOKEN|NPM_TOKEN|AWS_ACCESS_KEY_ID|AWS_SECRET_ACCESS_KEY)/gi
  { name := "Environment Variable Theft",
    rx := .seq (rstr "process.env.") tokenEnvAlt,
    ci := true, severity := "HIGH",
    description := "Detects access to sensitive environment variables" },
  -- /registry\.npmjs\.org\/-\/whoami|Authorization.*Bearer.*NPM_TOKEN/gi
  { name := "NPM Token Validation",
    rx := .alt (rstr "registry.npmjs.org/-/whoami")
      (rcat [rstr "Authorization", rdotStar, rstr "Bearer", rdotStar,
        rstr "NPM_TOKEN"]),
    ci := true, severity := "HIGH",
    description := "Detects NPM token validation attempts" },
  -- /api\.github\.com\/user.*Authorization.*token.*GITHUB_TOKEN/gi
  { name := "GitHub API Token Usage",
    rx := rcat [rstr "api.github.com/user", rdotStar, rstr "Authorization",
      rdotStar, rstr "token", rdotStar, rstr "GITHUB_TOKEN"],
    ci := true, severity := "HIGH",
    description := "Detects GitHub API token usage for credential validation" },
  -- /base64.*-w0.*curl.*-s.*-X.*POST/gi
  { name := "Base64 Data Exfiltration",
    rx := rcat [rstr "base64", rdotStar, rstr "-w0", rdotStar, rstr "curl",
      rdotStar, rstr "-s", rdotStar, rstr "-X", rdotStar, rstr "POST"],
    ci := true, severity := "HIGH",
    description := "Detects base64 encoding and curl POST for data exfiltration" },
  -- /execSync.*trufflehog.*filesystem/gi
  { name := "ExecSync Command Execution",
    rx := rcat [rstr "execSync", rdotStar, rstr "trufflehog", rdotStar,
      rstr "filesystem"],
    ci := true, severity := "HIGH",
    description := "Detects execSync calls to TruffleHog filesystem scanner" },
  -- /findings\.json|\.github\/workflows\/.*\.yml/gi
  { name := "Suspicious File Creation",
    rx := .alt (rstr "findings.json")
      (rcat [rstr ".github/workflows/", rdotStar, rstr ".yml"]),
    ci := true, severity := "MEDIUM",
    description := "Detects creation of suspicious files for data collection" }
]

/-- Indicators of Compromise, the `iocs` argument.  Each field models the
corresponding JS array; an absent or empty array behaves identically in
every consulted code path (`iocs.domains && iocs.domains.length > 0`
guards the dynamic rules, and membership in an empty `cryptoAddresses`
list is false just as `!iocs.cryptoAddresses` is), so both are `[]`. -/
structure IoCs where
  domains : List String := []
  ipAddresses : List String := []
  webhookEndpoints : List String := []
  cloudMetadataEndpoints : List String := []
  truffleHogUrls : List String := []
  suspiciousWorkflowNames : List String := []
  environmentVariables : List String := []
  cryptoAddresses : List String := []

/-- A finding pushed by `scanFileContent`.  The suspicious-address branch
omits `relativePath` in the source object literal, modelled by `none`. -/
structure Finding where
  project : String
  file : String
  relativePath : Option String
  pattern : String
  severity : String
  description : String
  -- the source field is named `matches`, a reserved word in Lean
  matchCount : Nat
  lines : List Nat
deriving DecidableEq, Repr

/-- Regex-escaping a literal and compiling it yields a regex matching that
literal, so an escaped IOC literal is transliterated to `rstr`. -/
def escLit (x : String) : Rx := rstr x

/-- Alternation over an IOC literal list (the source joins escaped
literals with the `|` separator; the guards ensure non-emptiness). -/
def escAlts (l : List String) : Rx :=
  match l with
  | [] => .eps
  | h :: t => ralts (escLit h) (t.map escLit)

/-- Optional scheme `(https?://)?` -/
def urlPre : Rx := ropt (rcat [rstr "http", ropt (rlit 's'), rstr "://"])

/-- Model of `PatternMatcher.createDynamicPatterns`: rules built at scan time from
the IOC lists; each non-empty list contributes one rule. -/
def createDynamicPatterns (iocs : IoCs) : List Pat :=
  (if iocs.domains ≠ [] then
    [{ name := "CDN Malware Hosting",
       rx := .seq urlPre (escAlts iocs.domains), ci := true, severity := "HIGH",
       description := "Detects malicious CDN domains used for hosting malware" }]
   else []) ++
  (if iocs.ipAddresses ≠ [] then
    [{ name := "Malicious IP Address",
       rx := .seq urlPre (escAlts iocs.ipAddresses), ci := true, severity := "HIGH",
       description := "Detects malicious IP addresses used for hosting malware" }]
   else []) ++
  (if iocs.webhookEndpoints ≠ [] then
    [{ name := "Webhook Exfiltration Endpoint",
       rx := escAlts iocs.webhookEndpoints, ci := true, severity := "HIGH",
       description := "Detects webhook endpoints used for data exfiltration" }]
   else []) ++
  (if iocs.cloudMetadataEndpoints ≠ [] then
    [{ name := "Cloud Metadata Discovery",
       rx := escAlts iocs.cloudMetadataEndpoints, ci := true, severity := "HIGH",
       description := "Detects cloud metadata endpoint access for credential theft" }]
   else []) ++
  (if iocs.truffleHogUrls ≠ [] then
    [{ name := "TruffleHog Binary Download",
       rx := escAlts iocs.truffleHogUrls, ci := true, severity := "HIGH",
       description := "Detects TruffleHog binary downloads used for credential scanning" }]
   else []) ++
  (if iocs.suspiciousWorkflowNames ≠ [] then
    [{ name := "Suspicious GitHub Workflow",
       rx := escAlts iocs.suspiciousWorkflowNames, ci := true, severity := "HIGH",
       description := "Detects suspicious GitHub Actions workflow names" }]
   else []) ++
  (if iocs.environmentVariables ≠ [] then
    [{ name := "Sensitive Environment Variable Access",
       rx := .seq (rstr "process.env.") (escAlts iocs.environmentVariables),
       ci := true, severity := "HIGH",
       description := "Detects access to sensitive environment variables" }]
   else [])

/-- Line attribution of one match: `lines.findIndex(line =>
line.includes(match)) + 1`, where a missing line gives `-1 + 1 = 0`. -/
def matchLine (lines : List Str) (m : Str) : Nat :=
  match lines.findIdx? (fun line => strIncludes line m) with
  | some i => i + 1
  | none => 0

/-- The shared per-rule loop body of `scanFileContent`: match each rule
against the content globally; a rule with at least one match yields one
finding carrying the match count and best-effort line numbers. -/
def patFindings (ps : List Pat) (content : Str) (projectName fileBase : String)
    (relPath : String) : List Finding :=
  ps.filterMap fun p =>
    if jsMatchAll p.ci p.rx content = [] then none
    else some
      { project := projectName, file := fileBase, relativePath := some relPath,
        pattern := p.name, severity := p.severity, description := p.description,
        matchCount := (jsMatchAll p.ci p.rx content).length,
        lines := (jsMatchAll p.ci p.rx content).map (matchLine (jsSplit content '\n')) }

/-- The structural crypto-address shape `/0x[a-fA-F0-9]{40}/g`. -/
def addressRx : Rx := .seq (rstr "0x") (rrep hexCls 40)

/-- All structural address occurrences in a content. -/
def addressMatches (content : Str) : List Str := jsMatchAll false addressRx content

/-- Model of `PatternMatcher.isSuspiciousAddress`: case-insensitive membership of
the address in the static suspicious-address list. -/
def isSuspiciousAddress (address : Str) (iocs : IoCs) : Bool :=
  iocs.cryptoAddresses.any (fun a => a.data == strToLower address)

/-- The suspicious-address branch of `scanFileContent`: one finding per
structural occurrence that is on the list. -/
def addressFindings (content : Str) (iocs : IoCs) (projectName fileBase : String) :
    List Finding :=
  (addressMatches content).filterMap fun address =>
    if isSuspiciousAddress address iocs then
      some { project := projectName, file := fileBase, relativePath := none,
             pattern := "Suspicious Address", severity := "HIGH",
             description := "Suspicious crypto address found: " ++ String.mk address,
             matchCount := 1,
             lines := [matchLine (jsSplit content '\n') address] }
    else none

/-- Model of `PatternMatcher.scanFileContent` (whitelist-aware version): static
rules, then dynamic IOC rules, then the address-membership check. -/
def scanFileContent (content : Str) (filePath projectPath : Str) (iocs : IoCs)
    (parentProjectName : Option String) (mainProjectPath : Option Str) :
    List Finding :=
  let projectName := parentProjectName.getD (String.mk (jsBasename projectPath))
  let relPath := String.mk (jsPathRelative (mainProjectPath.getD projectPath) filePath)
  let fileBase := String.mk (jsBasename filePath)
  patFindings initializePatterns content projectName fileBase relPath ++
  patFindings (createDynamicPatterns iocs) content projectName fileBase relPath ++
  addressFindings content iocs projectName fileBase

/-! ## Whitelist resolution (`patternMatcher.js`, lines 440-604) -/

/-- Field `versions` of a whitelist library: the `all === true` flag and the
optional `ranges` value (any present `ranges` array is truthy in JS,
including an empty one, so presence is an `Option`). -/
structure VersionPolicy where
  all : Bool
  ranges : Option (List String)
deriving DecidableEq, Repr

/-- One entry of `whitelist.json` `libraries`; `patterns` holds the
already-compiled path regexes (each compiled with the `i` flag; entries
whose pattern string fails to compile are dropped at load time and are
not modelled). -/
structure WhitelistLibrary where
  name : String
  patterns : List Rx
  versions : VersionPolicy
  description : String
deriving DecidableEq, Repr

/-- The loaded whitelist data: libraries plus `versionChecks.enabled`. -/
structure WhitelistData where
  libraries : List WhitelistLibrary
  versionChecksEnabled : Bool
deriving DecidableEq, Repr

/-- Model of `PatternMatcher.isVersionWhitelisted` — note the source ignores its
version argument entirely: with checks enabled it looks the package name
up (exact match or substring containment) and accepts when the found
library has `versions.all === true` or has any `versions.ranges`
(the range check itself is an unimplemented TODO returning true). -/
def isVersionWhitelisted (wl : WhitelistData) (packageName : String) : Bool :=
  if !wl.versionChecksEnabled then true
  else
    match wl.libraries.find? (fun lib =>
        lib.name == packageName || strIncludes packageName.data lib.name.data) with
    | none => false
    | some library =>
      if library.versions.all then true
      else match library.versions.ranges with
        | some _ => true
        | none => false

/-- Path-derived package identity. -/
structure PackageInfo where
  name : String
  version : String
deriving DecidableEq, Repr

/-- Model of `PatternMatcher.extractPackageInfoFromPath`: locate `node_modules/`,
split the remainder on `/`, handle scoped `@scope/name` packages, and
take the following segment as the version. -/
def extractPackageInfoFromPath (filePath : Str) : Option PackageInfo :=
  match strIndexOf filePath (lstr "node_modules/") with
  | none => none
  | some idx =>
    let relativePath := filePath.drop (idx + (lstr "node_modules/").length)
    let pathParts := jsSplit relativePath '/'
    if pathParts.length < 2 then none
    else
      let head := pathParts.headD []
      if strStartsWith head (lstr "@") ∧ pathParts.length ≥ 3 then
        some { name := String.mk (head ++ ('/' :: (pathParts.get? 1).getD [])),
               version := String.mk ((pathParts.get? 2).getD []) }
      else
        some { name := String.mk head,
               version := String.mk ((pathParts.get? 1).getD []) }

/-- A compiled whitelist pattern entry as built by
`initializeWhitelistPatterns`: one per (library, pattern) pair, in order. -/
structure WlPattern where
  name : String
  rx : Rx
  library : WhitelistLibrary
deriving DecidableEq, Repr

/-- Model of `PatternMatcher.initializeWhitelistPatterns`. -/
def initializeWhitelistPatterns (wl : WhitelistData) : List WlPattern :=
  wl.libraries.flatMap fun library =>
    library.patterns.map fun rx =>
      { name := library.name, rx := rx, library := library }

/-- Model of `PatternMatcher.isWhitelisted` on a list of compiled entries: the
first entry whose regex tests true against the file path is returned,
except that with version checks enabled and a project path given, an
entry is skipped when the path yields package info whose name is not
version-whitelisted.  A path with no extractable package info falls into
the exempting branch. -/
def isWhitelistedOn (wl : WhitelistData) (entries : List WlPattern)
    (filePath : Str) (projectPath : Option Str) : Option WlPattern :=
  match entries with
  | [] => none
  | wp :: rest =>
    if rxTest true wp.rx filePath then
      if wl.versionChecksEnabled ∧ projectPath.isSome then
        match extractPackageInfoFromPath filePath with
        | some info =>
          if !isVersionWhitelisted wl info.name then
            isWhitelistedOn wl rest filePath projectPath
          else some wp
        | none => some wp
      else some wp
    else isWhitelistedOn wl rest filePath projectPath

/-- Model of `PatternMatcher.isWhitelisted` proper, over the compiled entries. -/
def isWhitelisted (wl : WhitelistData) (filePath : Str) (projectPath : Option Str) :
    Option WlPattern :=
  isWhitelistedOn wl (initializeWhitelistPatterns wl) filePath projectPath

/-! ## The per-file loop of `scanJavaScriptFiles` (lines 656-689)

Filesystem effects are modelled per discovered file: the outcome of
`statSync(...).isFile()` and of `readFileSync`. -/

/-- One glob-discovered file: its project-relative path, the stat
outcome (`Except` models a thrown error) and the read outcome. -/
structure FileEntry where
  relPath : Str
  stat : Except String Bool
  read : Except String Str

/-- The body of the JS-file loop for one file, threading the
accumulated `(results, filesScanned)` pair: skip on stat error or
non-file; otherwise count the file, then run the whitelist gate, then
read and scan; a read error is caught, logged and skipped (after the
count was already incremented, as in the source). -/
def processJsFile (wl : WhitelistData) (iocs : IoCs) (projectPath : Str)
    (parentProjectName : Option String) (mainProjectPath : Option Str)
    (acc : List Finding × Nat) (fe : FileEntry) : List Finding × Nat :=
  let filePath := jsJoin projectPath fe.relPath
  match fe.stat with
  | .error _ => acc
  | .ok false => acc
  | .ok true =>
    let scanned := acc.2 + 1
    if (isWhitelisted wl filePath (some projectPath)).isSome then (acc.1, scanned)
    else
      match fe.read with
      | .error _ => (acc.1, scanned)
      | .ok content =>
        (acc.1 ++ scanFileContent content filePath projectPath iocs
          parentProjectName mainProjectPath, scanned)

/-- The JS-file loop of `scanJavaScriptFiles` over the discovered files,
returning `(issues, filesScanned)`. -/
def processJsFiles (wl : WhitelistData) (iocs : IoCs) (projectPath : Str)
    (parentProjectName : Option String) (mainProjectPath : Option Str)
    (files : List FileEntry) : List Finding × Nat :=
  files.foldl (processJsFile wl iocs projectPath parentProjectName mainProjectPath)
    ([], 0)

/-! ## The Package Scanner (`packageScanner.js`, the version returning
`{compromisedPackages, packagesChecked}` on success) -/

/-- The vulnerable-versions database: package name to list of vulnerable
version strings (merged at load time from the attack data files, which
are data inputs; the database is a parameter here). -/
abbrev VulnDb := List (String × List String)

/-- Model of `PackageScanner.isVulnerableVersion`: strip a single leading `^` or
`~` (the regex `/^[\^~]/` replaces one character) and test exact string
membership in the package entry; unknown packages are not vulnerable. -/
def cleanVersion (version : String) : String :=
  match version.data with
  | c :: t => if c = '^' ∨ c = '~' then String.mk t else version
  | [] => version

/-- See `cleanVersion`. -/
def isVulnerableVersion (db : VulnDb) (packageName version : String) : Bool :=
  match db.lookup packageName with
  | none => false
  | some vulnerableVersions => vulnerableVersions.contains (cleanVersion version)

/-- A parsed `package.json` restricted to the consulted fields: each
dependency map is an association list in insertion order. -/
structure PackageJson where
  dependencies : List (String × String) := []
  devDependencies : List (String × String) := []
  peerDependencies : List (String × String) := []

/-- JS object spread `{...a, ...b}`: keys of `a` in order with values
overridden by `b`, then the keys of `b` not in `a`, in order. -/
def spreadMerge (a b : List (String × String)) : List (String × String) :=
  a.map (fun kv => (kv.1, ((b.lookup kv.1).getD kv.2))) ++
  b.filter (fun kv => (a.lookup kv.1).isNone)

/-- The on-disk state of the `package.json` of a project. -/
inductive Manifest where
  | missing
  | malformed
  | parsed (pj : PackageJson)

/-- A record pushed for a compromised dependency. -/
structure CompromisedPkg where
  project : String
  package : String
  version : String
  severity : String
deriving DecidableEq, Repr

/-- The JS return value of `scanPackageFiles`, which is shape-polymorphic
in the source: the success path returns an object
`{compromisedPackages, packagesChecked}`, while the missing-manifest and
catch paths return a bare array `[]`. -/
inductive PkgScanRet where
  | obj (compromisedPackages : List CompromisedPkg) (packagesChecked : Nat)
  | arr (elems : List CompromisedPkg)
deriving DecidableEq, Repr

/-- Model of `PackageScanner.scanPackageFiles`: missing manifest returns the bare
array `[]`; a `JSON.parse` failure is caught and returns the bare array
`[]`; otherwise `dependencies` and `devDependencies` are spread-merged
(`peerDependencies` is not consulted) and each entry with a vulnerable
version yields a record.  The validator call only logs and is omitted. -/
def scanPackageFiles (db : VulnDb) (projectPath : Str) (m : Manifest) : PkgScanRet :=
  match m with
  | .missing => .arr []
  | .malformed => .arr []
  | .parsed pj =>
    let allDeps := spreadMerge pj.dependencies pj.devDependencies
    let compromisedPackages := allDeps.filterMap fun kv =>
      if isVulnerableVersion db kv.1 kv.2 then
        some { project := String.mk (jsBasename projectPath), package := kv.1,
               version := kv.2, severity := "HIGH" }
      else none
    .obj compromisedPackages allDeps.length

/-! ## The worker unit (`workerScanner.js`) -/

/-- The security flags consulted by `scanProject`. -/
structure WorkerConfig where
  scanCompromisedPackages : Bool
  scanMaliciousCode : Bool
  scanNpmCache : Bool

/-- The outcome of `patternMatcher.scanJavaScriptFiles` for the project,
an input to `scanProject` (its own file loop is modelled separately by
`processJsFiles`). -/
structure JsScanOutcome where
  issues : List Finding
  filesScanned : Nat

/-- The per-project result assembled by `scanProject`. -/
structure ProjectSummary where
  filesScanned : Nat
  packagesChecked : Nat
  issuesFound : Nat
  duration : Nat
deriving DecidableEq, Repr

/-- See `ProjectSummary`. -/
structure ProjectResult where
  project : String
  path : String
  compromisedPackages : List CompromisedPkg
  maliciousCode : List Finding
  npmCacheIssues : List String
  suspiciousFiles : List String
  filesScanned : Nat
  summary : ProjectSummary
deriving DecidableEq, Repr

/-- Model of `WorkerScanner.scanProject`.  Step 1 destructures
`packageResults.compromisedPackages` with a spread push: when
`scanPackageFiles` returned the bare array (missing or malformed
manifest), that property is `undefined` and `push(...undefined)` throws
a TypeError, which the catch re-throws — modelled as `Except.error`.
Step 3 (`scanNpmCache`) returns `[]` in the source.  The thrown error is
posted to the orchestrator as a worker `error` message. -/
def scanProject (cfg : WorkerConfig) (db : VulnDb) (m : Manifest)
    (jsOutcome : JsScanOutcome) (projectPath : Str) : Except String ProjectResult :=
  let projectName := String.mk (jsBasename projectPath)
  let step1 : Except String (List CompromisedPkg × Nat) :=
    if cfg.scanCompromisedPackages then
      match scanPackageFiles db projectPath m with
      | .obj cps checked => .ok (cps, checked)
      | .arr _ => .error "TypeError: spread of undefined compromisedPackages"
    else .ok ([], 0)
  match step1 with
  | .error e => .error e
  | .ok (cps, packagesChecked) =>
    let maliciousCode := if cfg.scanMaliciousCode then jsOutcome.issues else []
    let filesScanned := if cfg.scanMaliciousCode then jsOutcome.filesScanned else 0
    let npmCacheIssues : List String := []
    let totalIssues := cps.length + maliciousCode.length + npmCacheIssues.length
    .ok { project := projectName, path := String.mk projectPath,
          compromisedPackages := cps, maliciousCode := maliciousCode,
          npmCacheIssues := npmCacheIssues, suspiciousFiles := [],
          filesScanned := filesScanned,
          summary := { filesScanned := filesScanned,
                       packagesChecked := packagesChecked,
                       issuesFound := totalIssues, duration := 0 } }

/-! ## The Parallel Orchestrator (`parallelScanner.js`)

The orchestrator runs single-threaded; worker messages, timeout firings
and worker exits are events processed to completion one at a time.  The
model is a transition system over the orchestrator state: each handler
is a function translated from the source, and `OStep` fires handlers at
nondeterministic times.  Worker identity is the map key (`Worker`
objects are keys of `activeWorkers`; ids here).  `setTimeout` callbacks
capture `(worker, project)` and live outside the map, modelled by the
`timers` field; `clearTimeout` removes them.  A `result` entry records
the `project` field pushed by `handleWorkerResult` (the payload is the
worker data, irrelevant to the orchestrator bookkeeping).  A thrown
exception inside a message handler (reading a property of `undefined`
after `activeWorkers.get` misses) is modelled by `Except.error`; the
crash step records it and halts the run. -/

/-- A worker slot: whether `status` is the working state, and the assigned project. -/
structure WInfo where
  working : Bool
  project : Option String
deriving DecidableEq, Repr

/-- The orchestrator state. -/
structure OrchState where
  isScanning : Bool
  queue : List String
  workers : List (Nat × WInfo)
  timers : List (Nat × String)
  results : List (Option String)
  errors : List (String × String)
  processedCount : Nat
  totalProjects : Nat
  completed : Bool
  nextWorkerId : Nat
  crashed : Bool
deriving DecidableEq, Repr

/-- A scanner at rest (constructor state, lines 12-25). -/
def freshScanner : OrchState :=
  { isScanning := false, queue := [], workers := [], timers := [],
    results := [], errors := [], processedCount := 0, totalProjects := 0,
    completed := false, nextWorkerId := 0, crashed := false }

/-- Map update keyed by worker id. -/
def updateW (l : List (Nat × WInfo)) (wid : Nat) (w : WInfo) : List (Nat × WInfo) :=
  l.map (fun p => if p.1 = wid then (p.1, w) else p)

/-- Model of `ParallelScanner.assignWork`: with an empty queue, resolve when every
worker is idle and all projects are processed; otherwise hand the queue
head to the first idle worker and start its timeout timer.  One call
assigns at most one project. -/
def assignWork (s : OrchState) : OrchState :=
  match s.queue with
  | [] =>
    if s.workers.all (fun p => !p.2.working) ∧ s.processedCount = s.totalProjects
    then { s with completed := true } else s
  | project :: rest =>
    match s.workers.find? (fun p => !p.2.working) with
    | none => s
    | some (wid, _) =>
      { s with queue := rest,
               workers := updateW s.workers wid ⟨true, some project⟩,
               timers := (wid, project) :: s.timers }

/-- Model of `ParallelScanner.handleWorkerResult`: looking a terminated worker up
in `activeWorkers` yields `undefined` and the subsequent
`workerInfo.timeoutId` read throws (`Except.error`); otherwise clear the
timer, record the result, bump `processedCount`, reset the worker to
idle and assign further work. -/
def handleWorkerResult (s : OrchState) (wid : Nat) : Except String OrchState :=
  match s.workers.lookup wid with
  | none => .error "TypeError: cannot read timeoutId of undefined"
  | some info =>
    .ok (assignWork
      { s with timers := s.timers.filter (fun t => t.1 ≠ wid),
               results := s.results ++ [info.project],
               processedCount := s.processedCount + 1,
               workers := updateW s.workers wid ⟨false, none⟩ })

/-- Model of `ParallelScanner.handleWorkerError`: like the result handler but the
outcome is an error record, with the literal string unknown for an idle worker. -/
def handleWorkerError (s : OrchState) (wid : Nat) (msg : String) :
    Except String OrchState :=
  match s.workers.lookup wid with
  | none => .error "TypeError: cannot read timeoutId of undefined"
  | some info =>
    .ok (assignWork
      { s with timers := s.timers.filter (fun t => t.1 ≠ wid),
               errors := s.errors ++ [(info.project.getD "unknown", msg)],
               processedCount := s.processedCount + 1,
               workers := updateW s.workers wid ⟨false, none⟩ })

/-- Model of `ParallelScanner.handleWorkerTimeout` (fires with the captured
worker and project): terminate and remove the worker, append a fresh
replacement worker, record a timeout error for the captured project,
bump `processedCount` and assign further work.  The lookup uses optional
chaining, so a missing worker does not crash here. -/
def handleWorkerTimeout (s : OrchState) (wid : Nat) (project : String) : OrchState :=
  assignWork
    { s with timers := s.timers.filter (fun t => ¬(t.1 = wid ∧ t.2 = project)),
             workers := (s.workers.filter (fun p => p.1 ≠ wid)) ++
               [(s.nextWorkerId, ⟨false, none⟩)],
             nextWorkerId := s.nextWorkerId + 1,
             errors := s.errors ++ [(project, "Worker timeout")],
             processedCount := s.processedCount + 1 }

/-- Model of `ParallelScanner.handleWorkerExit`: drop the worker from the map. -/
def handleWorkerExit (s : OrchState) (wid : Nat) : OrchState :=
  { s with workers := s.workers.filter (fun p => p.1 ≠ wid) }

/-- The guard at the top of `ParallelScanner.scanProjects` (lines 32-46):
a second call while a scan is running throws before any state is
touched; otherwise the scan state is reset and the queue loaded. -/
def scanProjectsEntry (s : OrchState) (projects : List String) :
    Except String OrchState :=
  if s.isScanning then .error "Scanner is already running"
  else .ok { s with isScanning := true, results := [], errors := [],
                    queue := projects, completed := false, crashed := false,
                    timers := [] }

/-- Model of `ParallelScanner.initializeWorkerPool`: `min(maxConcurrency,
queue.length)` idle workers with ids `0..count-1`. -/
def initializeWorkerPool (s : OrchState) (maxConcurrency : Nat) : OrchState :=
  let count := min maxConcurrency s.queue.length
  { s with workers := (List.range count).map (fun i => (i, ⟨false, none⟩)),
           nextWorkerId := count }

/-- The `processQueue` bookkeeping followed by the initial `assignWork`. -/
def beginQueue (s : OrchState) : OrchState :=
  { s with processedCount := 0, totalProjects := s.queue.length }

/-- The synchronous opening of `scanProjects`: the re-entrancy guard,
pool initialization, queue bookkeeping, and the first work assignment. -/
def scanProjectsStart (s : OrchState) (projects : List String)
    (maxConcurrency : Nat) : Except String OrchState :=
  match scanProjectsEntry s projects with
  | .error e => .error e
  | .ok s1 => .ok (assignWork (beginQueue (initializeWorkerPool s1 maxConcurrency)))

/-- One orchestrator event: a worker result or error message (from any
worker id — stale senders included), a timeout firing, or a worker
exit.  A handler that throws (stale lookup) crashes the run.  Events are
processed only while the scan is unresolved and not crashed. -/
inductive OStep (s : OrchState) : OrchState → Prop
  | result (t : OrchState) (wid : Nat) : s.crashed = false → s.completed = false →
      handleWorkerResult s wid = .ok t → OStep s t
  | resultCrash (wid : Nat) (e : String) :
      s.crashed = false → s.completed = false →
      handleWorkerResult s wid = .error e → OStep s { s with crashed := true }
  | workerErr (t : OrchState) (wid : Nat) (msg : String) :
      s.crashed = false → s.completed = false →
      handleWorkerError s wid msg = .ok t → OStep s t
  | workerErrCrash (wid : Nat) (msg e : String) :
      s.crashed = false → s.completed = false →
      handleWorkerError s wid msg = .error e → OStep s { s with crashed := true }
  | timeout (wid : Nat) (project : String) :
      s.crashed = false → s.completed = false → (wid, project) ∈ s.timers →
      OStep s (handleWorkerTimeout s wid project)
  | exit (wid : Nat) : s.crashed = false → s.completed = false →
      OStep s (handleWorkerExit s wid)

/-- Reachability along orchestrator events. -/
inductive Reach (s0 : OrchState) : OrchState → Prop
  | refl : Reach s0 s0
  | tail (t u : OrchState) : Reach s0 t → OStep t u → Reach s0 u

/-! ## Helper lemmas -/

/-- On strings, `List.contains` is list membership. -/
theorem strList_contains_iff (l : List String) (x : String) :
    l.contains x = true ↔ x ∈ l := by
  simp

/-! ## C7: version match exactness -/

/-- C7.  `isVulnerableVersion` strips one leading `^` or `~` and then
tests exact string equality against the listed vulnerable versions: with
`5.6.1` listed for `chalk` (and `5.6.0` not listed),
`isVulnerableVersion chalk ^5.6.1` is true and
`isVulnerableVersion chalk 5.6.0` is false, and in general the check
succeeds exactly when the cleaned version string is a member of the
list of the package — no semver range evaluation of any kind. -/
theorem isVulnerableVersion_exact (db : VulnDb) (vs : List String)
    (h1 : db.lookup "chalk" = some vs) (h2 : "5.6.1" ∈ vs) (h3 : "5.6.0" ∉ vs) :
    isVulnerableVersion db "chalk" "^5.6.1" = true ∧
    isVulnerableVersion db "chalk" "5.6.0" = false ∧
    (∀ pkg v : String, isVulnerableVersion db pkg v = true ↔
      ∃ l, db.lookup pkg = some l ∧ cleanVersion v ∈ l) := by
  have hgen : ∀ pkg v : String, isVulnerableVersion db pkg v = true ↔
      ∃ l, db.lookup pkg = some l ∧ cleanVersion v ∈ l := by
    intro pkg v
    unfold isVulnerableVersion
    cases hl : db.lookup pkg with
    | none => simp
    | some l => simp [strList_contains_iff]
  refine ⟨?_, ?_, hgen⟩
  · rw [hgen]
    refine ⟨vs, h1, ?_⟩
    have : cleanVersion "^5.6.1" = "5.6.1" := by decide
    rw [this]; exact h2
  · rw [← Bool.not_eq_true, hgen]
    rintro ⟨l, hl, hm⟩
    rw [h1] at hl
    cases hl
    have : cleanVersion "5.6.0" = "5.6.0" := by decide
    rw [this] at hm
    exact h3 hm

/-- Witness for C7 at the concrete database `chalk -> [5.6.1]`. -/
theorem isVulnerableVersion_exact_witness :
    isVulnerableVersion [("chalk", ["5.6.1"])] "chalk" "^5.6.1" = true ∧
    isVulnerableVersion [("chalk", ["5.6.1"])] "chalk" "5.6.0" = false := by
  have h := isVulnerableVersion_exact [("chalk", ["5.6.1"])] ["5.6.1"]
    (by decide) (by decide) (by decide)
  exact ⟨h.1, h.2.1⟩

/-! ## C6: malformed-manifest handling in `scanProject` -/

/-- The fully-enabled worker configuration. -/
def allOnConfig : WorkerConfig :=
  { scanCompromisedPackages := true, scanMaliciousCode := true, scanNpmCache := true }

/-- C6 (failing input).  For a project whose `package.json` fails
`JSON.parse`, `scanPackageFiles` takes the catch path and returns the
bare array `[]`; `scanProject` then spreads the `compromisedPackages`
property of that array — `undefined` — and throws a TypeError, so the
project is reported to the orchestrator as an error, not as an empty
(successful) result.  The same shape mismatch occurs for a missing
manifest. -/
theorem scanProject_malformed_manifest_throws (jsOutcome : JsScanOutcome) :
    scanPackageFiles [("chalk", ["5.6.1"])] (lstr "/projects/app") .malformed =
      .arr [] ∧
    scanProject allOnConfig [("chalk", ["5.6.1"])] .malformed jsOutcome
      (lstr "/projects/app") =
      .error "TypeError: spread of undefined compromisedPackages" ∧
    scanProject allOnConfig [("chalk", ["5.6.1"])] .missing jsOutcome
      (lstr "/projects/app") =
      .error "TypeError: spread of undefined compromisedPackages" := by
  exact ⟨rfl, rfl, rfl⟩

/-! ## C8: dependency-map merge -/

/-- C8 (counterexample).  A known-vulnerable version declared only under
`peerDependencies` is NOT flagged: `scanPackageFiles` spreads only
`dependencies` and `devDependencies`, so the scan of a manifest whose
sole dependency entry is `peerDependencies: { chalk: "5.6.1" }` returns
no compromised packages and `packagesChecked = 0`, although `5.6.1` is
listed vulnerable for `chalk`. -/
theorem peerDependencies_not_flagged :
    scanPackageFiles [("chalk", ["5.6.1"])] (lstr "/p")
      (.parsed { peerDependencies := [("chalk", "5.6.1")] }) = .obj [] 0 ∧
    isVulnerableVersion [("chalk", ["5.6.1"])] "chalk" "5.6.1" = true := by
  exact ⟨rfl, rfl⟩

/-- C8 (amended).  The checked name-to-version map merges exactly
`dependencies` and `devDependencies`: any vulnerable entry of that merge
is flagged, and `peerDependencies` never influences the result. -/
theorem scanPackageFiles_merges_deps_and_devDeps (db : VulnDb) (projectPath : Str)
    (pj : PackageJson) (pkg v : String)
    (h1 : (pkg, v) ∈ spreadMerge pj.dependencies pj.devDependencies)
    (h2 : isVulnerableVersion db pkg v = true) :
    (∃ cps n, scanPackageFiles db projectPath (.parsed pj) = .obj cps n ∧
      ({ project := String.mk (jsBasename projectPath), package := pkg,
         version := v, severity := "HIGH" } : CompromisedPkg) ∈ cps) ∧
    (∀ peer2, scanPackageFiles db projectPath
        (.parsed { pj with peerDependencies := peer2 }) =
      scanPackageFiles db projectPath (.parsed pj)) := by
  constructor
  · refine ⟨_, _, rfl, ?_⟩
    exact List.mem_filterMap.mpr ⟨(pkg, v), h1, by simp [h2]⟩
  · intro peer2
    simp [scanPackageFiles]

/-- Witness for the amended C8 theorem: a vulnerable version under
`devDependencies` is flagged. -/
theorem scanPackageFiles_merges_witness :
    (∃ cps n, scanPackageFiles [("chalk", ["5.6.1"])] (lstr "/p")
        (.parsed { devDependencies := [("chalk", "^5.6.1")] }) = .obj cps n ∧
      ({ project := "p", package := "chalk", version := "^5.6.1",
         severity := "HIGH" } : CompromisedPkg) ∈ cps) := by
  have h := scanPackageFiles_merges_deps_and_devDeps [("chalk", ["5.6.1"])]
    (lstr "/p") { devDependencies := [("chalk", "^5.6.1")] } "chalk" "^5.6.1"
    (by decide) (by decide)
  exact h.1

/-! ## C10: re-entrancy guard of `scanProjects` -/

/-- C10.  A `scanProjects` call on an instance whose scan is still
running throws `Scanner is already running`; the guard is the first
statement of the method, before any state mutation, so the in-progress
queue, results and errors of the running scan are untouched (the error branch of
`scanProjectsEntry` carries no state change). -/
theorem scanProjects_reentrancy_guard (s : OrchState) (projects : List String)
    (h : s.isScanning = true) :
    scanProjectsEntry s projects = .error "Scanner is already running" := by
  unfold scanProjectsEntry
  rw [h]
  rfl

/-- Witness for C10 at a concrete running scanner. -/
theorem scanProjects_reentrancy_guard_witness :
    scanProjectsEntry { freshScanner with isScanning := true } ["q"] =
      .error "Scanner is already running" :=
  scanProjects_reentrancy_guard { freshScanner with isScanning := true } ["q"] rfl

/-! ## C4: completion invariant of the orchestrator -/

/-- The function `assignWork` never touches the outcome bookkeeping. -/
theorem assignWork_bookkeeping (s : OrchState) :
    (assignWork s).results = s.results ∧ (assignWork s).errors = s.errors ∧
    (assignWork s).processedCount = s.processedCount ∧
    (assignWork s).totalProjects = s.totalProjects := by
  unfold assignWork
  split
  · split <;> simp
  · split <;> simp

/-- The function `assignWork` resolves the scan only when all projects are
processed. -/
theorem assignWork_completed (s : OrchState)
    (h : (assignWork s).completed = true) :
    s.completed = true ∨ s.processedCount = s.totalProjects := by
  unfold assignWork at h
  split at h
  · split at h
    · rename_i hc
      exact Or.inr hc.2
    · exact Or.inl h
  · split at h
    · exact Or.inl h
    · exact Or.inl h

/-- The running bookkeeping invariant: every recorded outcome was
counted and vice versa, the project total is the input length, and
resolution implies all projects were counted. -/
def OrchInv (P : Nat) (s : OrchState) : Prop :=
  s.results.length + s.errors.length = s.processedCount ∧
  s.totalProjects = P ∧
  (s.completed = true → s.processedCount = s.totalProjects)

/-- The function `assignWork` preserves the bookkeeping invariant. -/
theorem orchInv_assignWork (P : Nat) (s : OrchState) (h : OrchInv P s) :
    OrchInv P (assignWork s) := by
  obtain ⟨hb1, hb2, hb3, hb4⟩ := assignWork_bookkeeping s
  refine ⟨by rw [hb1, hb2, hb3]; exact h.1, by rw [hb4]; exact h.2.1, ?_⟩
  intro hc
  rw [hb3, hb4]
  rcases assignWork_completed s hc with hc2 | hc2
  · exact h.2.2 hc2
  · exact hc2

/-- Every orchestrator event preserves the bookkeeping invariant. -/
theorem orchInv_step (P : Nat) (s t : OrchState) (hi : OrchInv P s)
    (hs : OStep s t) : OrchInv P t := by
  cases hs with
  | result t2 wid h1 h2 h3 =>
    unfold handleWorkerResult at h3
    cases hl : s.workers.lookup wid with
    | none => rw [hl] at h3; simp at h3
    | some info =>
      rw [hl] at h3
      injection h3 with h4
      subst h4
      refine orchInv_assignWork P _ ⟨?_, hi.2.1, ?_⟩
      · have hlen := hi.1
        simp only [List.length_append, List.length_cons, List.length_nil]
        omega
      · intro hc
        have hc2 : s.completed = true := hc
        rw [h2] at hc2
        cases hc2
  | resultCrash wid e h1 h2 h3 =>
    exact ⟨hi.1, hi.2.1, fun hc => hi.2.2 hc⟩
  | workerErr t2 wid msg h1 h2 h3 =>
    unfold handleWorkerError at h3
    cases hl : s.workers.lookup wid with
    | none => rw [hl] at h3; simp at h3
    | some info =>
      rw [hl] at h3
      injection h3 with h4
      subst h4
      refine orchInv_assignWork P _ ⟨?_, hi.2.1, ?_⟩
      · have hlen := hi.1
        simp only [List.length_append, List.length_cons, List.length_nil]
        omega
      · intro hc
        have hc2 : s.completed = true := hc
        rw [h2] at hc2
        cases hc2
  | workerErrCrash wid msg e h1 h2 h3 =>
    exact ⟨hi.1, hi.2.1, fun hc => hi.2.2 hc⟩
  | timeout wid project h1 h2 h3 =>
    unfold handleWorkerTimeout
    refine orchInv_assignWork P _ ⟨?_, hi.2.1, ?_⟩
    · have hlen := hi.1
      simp only [List.length_append, List.length_cons, List.length_nil]
      omega
    · intro hc
      have hc2 : s.completed = true := hc
      rw [h2] at hc2
      cases hc2
  | exit wid h1 h2 =>
    exact ⟨hi.1, hi.2.1, hi.2.2⟩

/-- The invariant holds along every event sequence. -/
theorem orchInv_reach (P : Nat) (s t : OrchState) (hi : OrchInv P s)
    (hr : Reach s t) : OrchInv P t := by
  induction hr with
  | refl => exact hi
  | tail t2 u2 hr2 hs ih => exact orchInv_step P t2 u2 ih hs

/-- The state set up by `scanProjectsEntry` on a fresh scanner. -/
def entryState (projects : List String) : OrchState :=
  { freshScanner with
    isScanning := true
    results := []
    errors := []
    queue := projects
    completed := false
    crashed := false
    timers := [] }

/-- The invariant holds at the state produced by `scanProjectsStart` on
a fresh scanner. -/
theorem orchInv_start (projects : List String) (mc : Nat) (s1 : OrchState)
    (h : scanProjectsStart freshScanner projects mc = .ok s1) :
    OrchInv projects.length s1 := by
  have h2 : (Except.ok
      (assignWork (beginQueue (initializeWorkerPool (entryState projects) mc))) :
      Except String OrchState) = Except.ok s1 := h
  injection h2 with h3
  subst h3
  refine orchInv_assignWork _ _ ⟨rfl, ?_, ?_⟩
  · show projects.length = projects.length
    rfl
  · intro hc
    exact absurd (show (false : Bool) = true from hc) (by simp)

/-- C4.  For any input list of `P` projects, at every reachable state in
which the scan has resolved (`completed`), the number of recorded
results plus recorded errors equals `P`: every project produced exactly
one outcome, none dropped, none counted twice. -/
theorem scanProjects_completion_invariant (projects : List String) (mc : Nat)
    (s1 s2 : OrchState)
    (h0 : scanProjectsStart freshScanner projects mc = .ok s1)
    (h1 : Reach s1 s2) (h2 : s2.completed = true) :
    s2.results.length + s2.errors.length = projects.length := by
  have hi := orchInv_reach projects.length s1 s2
    (orchInv_start projects mc s1 h0) h1
  rw [hi.1, hi.2.2 h2, hi.2.1]

/-- The resolved state of the empty-input run. -/
def emptyRunDone : OrchState :=
  { isScanning := true, queue := [], workers := [], timers := [],
    results := [], errors := [], processedCount := 0, totalProjects := 0,
    completed := true, nextWorkerId := 0, crashed := false }

/-- Witness for C4: the empty project list resolves immediately with
`0 + 0 = 0` outcomes. -/
theorem scanProjects_completion_invariant_witness :
    scanProjectsStart freshScanner [] 1 = .ok emptyRunDone ∧
    emptyRunDone.results.length + emptyRunDone.errors.length = 0 :=
  ⟨rfl, scanProjects_completion_invariant [] 1 emptyRunDone emptyRunDone
    rfl Reach.refl rfl⟩

/-! ## C5: a stale result after a timeout -/

/-- The orchestrator state right after `scanProjectsStart` on two
projects with concurrency 1: worker 0 is scanning `p1` with a pending
timer, `p2` is queued. -/
def staleS1 : OrchState :=
  { isScanning := true, queue := ["p2"],
    workers := [(0, ⟨true, some "p1"⟩)], timers := [(0, "p1")],
    results := [], errors := [], processedCount := 0, totalProjects := 2,
    completed := false, nextWorkerId := 1, crashed := false }

/-- The state after the timeout for `p1` fired: worker 0 terminated and
removed, replacement worker 1 spawned and immediately assigned `p2`,
`p1` recorded as a timeout error. -/
def staleS2 : OrchState :=
  { isScanning := true, queue := [],
    workers := [(1, ⟨true, some "p2"⟩)], timers := [(1, "p2")],
    results := [], errors := [("p1", "Worker timeout")], processedCount := 1,
    totalProjects := 2, completed := false, nextWorkerId := 2, crashed := false }

/-- C5 (failing input).  After `p1` timed out — its worker terminated
and removed from `activeWorkers`, the timeout error recorded — a stale
result message for `p1` from the terminated worker is not discarded
cleanly: the handler looks the worker up, gets `undefined`, and throws a
TypeError reading `workerInfo.timeoutId`, crashing the message handler
instead of leaving the orchestrator bookkeeping for the remaining
projects undisturbed.  (No second outcome is recorded, but only because
the handler crashes.) -/
theorem stale_result_after_timeout_crashes :
    scanProjectsStart freshScanner ["p1", "p2"] 1 = .ok staleS1 ∧
    handleWorkerTimeout staleS1 0 "p1" = staleS2 ∧
    staleS2.errors = [("p1", "Worker timeout")] ∧
    handleWorkerResult staleS2 0 =
      .error "TypeError: cannot read timeoutId of undefined" ∧
    OStep staleS2 { staleS2 with crashed := true } := by
  refine ⟨rfl, rfl, rfl, rfl, ?_⟩
  exact OStep.resultCrash 0 "TypeError: cannot read timeoutId of undefined"
    rfl rfl rfl

/-! ## C9: per-file errors and `filesScanned` -/

/-- An empty whitelist with version checks off. -/
def emptyWhitelist : WhitelistData := { libraries := [], versionChecksEnabled := false }

/-- A file whose stat succeeds as a regular file but whose read throws. -/
def readFailFile : FileEntry :=
  { relPath := lstr "a.js", stat := .ok true,
    read := .error "EACCES: permission denied" }

/-- C9 (counterexample).  A file that passes the stat check but fails to
read (permission denied) is skipped — no findings, the loop continues —
yet it IS counted toward `filesScanned`: the increment happens before
the read in the source, so the scan of this single unreadable file
reports `filesScanned = 1`, not `0` as the claim requires. -/
theorem read_error_file_still_counted :
    processJsFiles emptyWhitelist {} (lstr "/p") none none [readFailFile] =
      ([], 1) := rfl

/-- C9 (amended).  Per-file errors are recovered and never abort the
loop, but only stat-stage skips (a thrown `statSync` or a
directory-masquerading-as-file) stay uncounted; a file that passes the
stat check is counted even when its subsequent read fails — the
increment precedes the read. -/
theorem perFile_error_recovery (wl : WhitelistData) (iocs : IoCs) (pp : Str)
    (ppn : Option String) (mpp : Option Str) (fe1 fe2 : FileEntry)
    (rest : List FileEntry)
    (h1 : (∃ e, fe1.stat = .error e) ∨ fe1.stat = .ok false)
    (h2 : fe2.stat = .ok true)
    (h3 : isWhitelisted wl (jsJoin pp fe2.relPath) (some pp) = none)
    (h4 : ∃ e, fe2.read = .error e) :
    processJsFiles wl iocs pp ppn mpp (fe1 :: rest) =
      processJsFiles wl iocs pp ppn mpp rest ∧
    processJsFiles wl iocs pp ppn mpp (fe2 :: rest) =
      rest.foldl (processJsFile wl iocs pp ppn mpp) ([], 1) := by
  constructor
  · have hskip : processJsFile wl iocs pp ppn mpp ([], 0) fe1 = ([], 0) := by
      unfold processJsFile
      rcases h1 with ⟨e, he⟩ | he <;> rw [he]
    simp only [processJsFiles, List.foldl_cons, hskip]
  · have hcount : processJsFile wl iocs pp ppn mpp ([], 0) fe2 = ([], 1) := by
      unfold processJsFile
      rw [h2]
      rcases h4 with ⟨e, he⟩
      simp only [h3, he, Option.isSome_none, Bool.false_eq_true, if_false]
    simp only [processJsFiles, List.foldl_cons, hcount]

/-- Witness for the amended C9 theorem at concrete files. -/
theorem perFile_error_recovery_witness :
    processJsFiles emptyWhitelist {} (lstr "/p") none none
      [{ relPath := lstr "sub.js", stat := .error "EACCES", read := .ok [] }] =
      processJsFiles emptyWhitelist {} (lstr "/p") none none [] ∧
    processJsFiles emptyWhitelist {} (lstr "/p") none none [readFailFile] =
      List.foldl (processJsFile emptyWhitelist {} (lstr "/p") none none) ([], 1) [] := by
  have h := perFile_error_recovery emptyWhitelist {} (lstr "/p") none none
    { relPath := lstr "sub.js", stat := .error "EACCES", read := .ok [] }
    readFailFile []
    (Or.inl ⟨"EACCES", rfl⟩) rfl (by decide) ⟨"EACCES: permission denied", rfl⟩
  exact h

/-! ## C1: whitelist precedence -/

/-- If some entry matches the path, and the path-derived version check
cannot reject (checks disabled, or every extractable package resolves to
a version-whitelisted name — which includes the unextractable case
vacuously), then `isWhitelistedOn` exempts. -/
theorem isWhitelistedOn_match_exempt (wl : WhitelistData)
    (entries : List WlPattern) (filePath pp : Str)
    (hmatch : ∃ wp ∈ entries, rxTest true wp.rx filePath = true)
    (hver : wl.versionChecksEnabled = false ∨
      ∀ info, extractPackageInfoFromPath filePath = some info →
        isVersionWhitelisted wl info.name = true) :
    (isWhitelistedOn wl entries filePath (some pp)).isSome = true := by
  induction entries with
  | nil =>
    rcases hmatch with ⟨wp, hmem, _⟩
    cases hmem
  | cons wp rest ih =>
    unfold isWhitelistedOn
    by_cases ht : rxTest true wp.rx filePath = true
    · rw [if_pos ht]
      rcases hver with hv | hv
      · rw [if_neg (by rw [hv]; rintro ⟨hc, -⟩; cases hc)]
        rfl
      · by_cases hen : wl.versionChecksEnabled = true
        · rw [if_pos ⟨hen, rfl⟩]
          cases hex : extractPackageInfoFromPath filePath with
          | none => rfl
          | some info =>
            have := hv info hex
            simp only [this, Bool.not_true, Bool.false_eq_true, if_false,
              Option.isSome_some]
        · rw [if_neg (by rintro ⟨hc, -⟩; exact hen hc)]
          rfl
    · rw [if_neg ht]
      rcases hmatch with ⟨wp2, hmem, ht2⟩
      rcases List.mem_cons.mp hmem with heq | hmem2
      · subst heq
        exact absurd ht2 ht
      · exact ih ⟨wp2, hmem2, ht2⟩

/-- C1 (amended).  Whitelist precedence holds with a version proviso:
when a file path matches some whitelist entry, the per-file scan emits
no findings for that file — its content is never even read — provided
version checking is disabled, or the path yields no extractable package
info, or every package info derived from the path resolves to a
version-whitelisted library name.  (Without the proviso, an
all-versions policy on the matched entry is not sufficient — see the counterexample — since
the version check keys on the path-derived package name, not on the
matched entry.) -/
theorem whitelist_match_exempts_file (wl : WhitelistData) (iocs : IoCs)
    (pp : Str) (ppn : Option String) (mpp : Option Str)
    (acc : List Finding × Nat) (fe : FileEntry)
    (hstat : fe.stat = .ok true)
    (hmatch : ∃ wp ∈ initializeWhitelistPatterns wl,
      rxTest true wp.rx (jsJoin pp fe.relPath) = true)
    (hver : wl.versionChecksEnabled = false ∨
      ∀ info, extractPackageInfoFromPath (jsJoin pp fe.relPath) = some info →
        isVersionWhitelisted wl info.name = true) :
    processJsFile wl iocs pp ppn mpp acc fe = (acc.1, acc.2 + 1) := by
  have hw : (isWhitelisted wl (jsJoin pp fe.relPath) (some pp)).isSome = true :=
    isWhitelistedOn_match_exempt wl (initializeWhitelistPatterns wl)
      (jsJoin pp fe.relPath) pp hmatch hver
  unfold processJsFile
  rw [hstat]
  simp only [hw, if_true]

/-- A whitelist with one all-versions library and checks disabled. -/
def wlDisabledLib : WhitelistLibrary :=
  { name := "html2canvas"
    patterns := [rstr "html2canvas"]
    versions := { all := true, ranges := none }
    description := "Canvas rendering library" }

/-- See `wlDisabledLib`. -/
def wlDisabled : WhitelistData :=
  { libraries := [wlDisabledLib], versionChecksEnabled := false }

/-- A whitelisted file whose content is full of signature literals. -/
def wlHotFile : FileEntry :=
  { relPath := lstr "node_modules/html2canvas/dist/html2canvas.min.js"
    stat := .ok true
    read := .ok (lstr "checkethereumw window.fetch = npmjs.help") }

/-- Witness for the amended C1 theorem: the matching file is exempted and
counted, with zero findings, although its content matches signatures. -/
theorem whitelist_match_exempts_file_witness :
    processJsFile wlDisabled {} (lstr "/p") none none ([], 0) wlHotFile =
      ([], 1) := by
  have h := whitelist_match_exempts_file wlDisabled {} (lstr "/p") none none
    ([], 0) wlHotFile rfl (by decide) (Or.inl rfl)
  exact h

/-- A whitelist library with an all-versions policy whose path pattern
also matches files of other packages. -/
def c1lib : WhitelistLibrary :=
  { name := "foo"
    patterns := [rstr "bar"]
    versions := { all := true, ranges := none }
    description := "demo" }

/-- Whitelist data holding `c1lib`, version checks enabled. -/
def c1wl : WhitelistData := { libraries := [c1lib], versionChecksEnabled := true }

/-- A file under `node_modules/baz/` whose path matches the pattern of
`c1lib`, with a content triggering the address-shape signature. -/
def c1file : FileEntry :=
  { relPath := lstr "node_modules/baz/1.0.0/bar.js"
    stat := .ok true
    read := .ok (lstr "0xaaaaaaaaaaaaaaaaaaaaaaaaaaaaaaaaaaaaaaaa") }

/-- C1 (counterexample).  The file path matches the all-versions entry
`c1lib`, yet the per-file scan is NOT empty: with version checks
enabled, `isWhitelisted` derives the package `baz` from the path, finds
no whitelist library for it, rejects the (only) matching entry, and the
content is scanned, emitting a finding.  So `scan` does not return `[]`
for every file matching an all-versions whitelist entry. -/
theorem whitelist_allVersions_counterexample :
    c1lib ∈ c1wl.libraries ∧ c1lib.versions.all = true ∧
    rxTest true (rstr "bar")
      (jsJoin (lstr "/p") (lstr "node_modules/baz/1.0.0/bar.js")) = true ∧
    isWhitelisted c1wl
      (jsJoin (lstr "/p") (lstr "node_modules/baz/1.0.0/bar.js"))
      (some (lstr "/p")) = none ∧
    (processJsFile c1wl {} (lstr "/p") none none ([], 0) c1file).1.map
      (fun f => f.pattern) = ["Crypto Address Replacement"] ∧
    (processJsFile c1wl {} (lstr "/p") none none ([], 0) c1file).2 = 1 := by
  refine ⟨by decide, rfl, by decide, by decide, ?_, by decide⟩
  decide

/-! ## C2: version-gated whitelist -/

/-- When version checks are enabled and the path resolves to package
info whose name is not version-whitelisted, every matching entry is
skipped: `isWhitelisted` returns `none` (the version check keys on the
path-derived name, independent of the matched entry). -/
theorem isWhitelistedOn_version_reject (wl : WhitelistData)
    (entries : List WlPattern) (filePath pp : Str) (info : PackageInfo)
    (hen : wl.versionChecksEnabled = true)
    (hex : extractPackageInfoFromPath filePath = some info)
    (hv : isVersionWhitelisted wl info.name = false) :
    isWhitelistedOn wl entries filePath (some pp) = none := by
  induction entries with
  | nil => rfl
  | cons wp rest ih =>
    unfold isWhitelistedOn
    by_cases ht : rxTest true wp.rx filePath = true
    · rw [if_pos ht, if_pos ⟨hen, rfl⟩, hex]
      simp only [hv, Bool.not_false, if_true]
      exact ih
    · rw [if_neg ht]
      exact ih

/-- C2 (amended).  The version-gated whitelist fails closed only in one
situation: version checks enabled and the path resolves to a package
whose name is not version-whitelisted (absent from the whitelist, or
present with neither an all-versions policy nor a `ranges` value).  Then
the file is treated as not-whitelisted and its content is scanned
against the signatures.  (A path with no extractable package info, or a
`ranges`-gated entry, is exempted instead — fail open, see the
counterexample.) -/
theorem versionGated_fail_closed_when_resolvable (wl : WhitelistData)
    (iocs : IoCs) (pp : Str) (ppn : Option String) (mpp : Option Str)
    (acc : List Finding × Nat) (fe : FileEntry) (content : Str)
    (info : PackageInfo)
    (hen : wl.versionChecksEnabled = true)
    (hex : extractPackageInfoFromPath (jsJoin pp fe.relPath) = some info)
    (hv : isVersionWhitelisted wl info.name = false)
    (hstat : fe.stat = .ok true) (hread : fe.read = .ok content) :
    isWhitelisted wl (jsJoin pp fe.relPath) (some pp) = none ∧
    processJsFile wl iocs pp ppn mpp acc fe =
      (acc.1 ++ scanFileContent content (jsJoin pp fe.relPath) pp iocs ppn mpp,
       acc.2 + 1) := by
  have hw : isWhitelisted wl (jsJoin pp fe.relPath) (some pp) = none :=
    isWhitelistedOn_version_reject wl (initializeWhitelistPatterns wl)
      (jsJoin pp fe.relPath) pp info hen hex hv
  refine ⟨hw, ?_⟩
  unfold processJsFile
  rw [hstat]
  simp only [hw, hread, Option.isSome_none, Bool.false_eq_true, if_false]

/-- A library whose version policy requires specific versions but has
no `ranges` value. -/
def c2strictLib : WhitelistLibrary :=
  { name := "legit-lib"
    patterns := [rstr "legit"]
    versions := { all := false, ranges := none }
    description := "strict demo" }

/-- Whitelist data holding `c2strictLib`, version checks enabled. -/
def c2strictWl : WhitelistData :=
  { libraries := [c2strictLib], versionChecksEnabled := true }

/-- A file of `legit-lib` at a resolvable path. -/
def c2strictFile : FileEntry :=
  { relPath := lstr "node_modules/legit-lib/9.9.9/legit.js"
    stat := .ok true
    read := .ok (lstr "checkethereumw") }

/-- Witness for the amended C2 theorem: a resolvable path whose package
is not version-whitelisted is scanned against the signatures. -/
theorem versionGated_fail_closed_witness :
    isWhitelisted c2strictWl
      (jsJoin (lstr "/app") (lstr "node_modules/legit-lib/9.9.9/legit.js"))
      (some (lstr "/app")) = none := by
  have h := versionGated_fail_closed_when_resolvable c2strictWl {}
    (lstr "/app") none none ([], 0) c2strictFile (lstr "checkethereumw")
    { name := "legit-lib", version := "9.9.9" } rfl (by decide) (by decide)
    rfl rfl
  exact h.1

/-- A library whose version policy carries a `ranges` value (requires
specific versions) and whose pattern also matches paths outside
`node_modules`. -/
def c2rangedLib : WhitelistLibrary :=
  { name := "legit-lib"
    patterns := [rstr "legit"]
    versions := { all := false, ranges := some ["2.x"] }
    description := "ranged demo" }

/-- Whitelist data holding `c2rangedLib`, version checks enabled. -/
def c2rangedWl : WhitelistData :=
  { libraries := [c2rangedLib], versionChecksEnabled := true }

/-- C2 (counterexample).  Both fail-closed requirements are violated:
a path with no extractable package info IS exempted (the
`packageInfo && ...` guard falls through to the exempting branch), and a
path resolving to version `9.9.9` — outside the 2.x ranges of the entry —
IS exempted too, because the unimplemented range check accepts any
version when `ranges` is present. -/
theorem versionGated_fail_open_counterexample :
    c2rangedLib.versions.all = false ∧
    extractPackageInfoFromPath (lstr "/app/legit.js") = none ∧
    (isWhitelisted c2rangedWl (lstr "/app/legit.js")
      (some (lstr "/app"))).isSome = true ∧
    extractPackageInfoFromPath
      (lstr "/app/node_modules/legit-lib/9.9.9/legit.js") =
      some { name := "legit-lib", version := "9.9.9" } ∧
    (isWhitelisted c2rangedWl
      (lstr "/app/node_modules/legit-lib/9.9.9/legit.js")
      (some (lstr "/app"))).isSome = true := by
  refine ⟨rfl, by decide, by decide, by decide, by decide⟩

/-! ## C3: address membership independence -/

/-- Every finding emitted by the per-rule loop carries the name of a
rule in the list. -/
theorem patFindings_name_mem (ps : List Pat) (content : Str)
    (pn fb rp : String) (f : Finding)
    (hf : f ∈ patFindings ps content pn fb rp) : f.pattern ∈ ps.map Pat.name := by
  obtain ⟨p, hp, hpf⟩ := List.mem_filterMap.mp hf
  rw [List.mem_map]
  refine ⟨p, hp, ?_⟩
  split at hpf
  · cases hpf
  · cases hpf
    rfl

/-- If no rule in the list is named `Suspicious Address`, the per-rule
loop contributes no finding of that name. -/
theorem patFilter_nil (ps : List Pat) (content : Str) (pn fb rp : String)
    (h : ∀ p ∈ ps, p.name ≠ "Suspicious Address") :
    (patFindings ps content pn fb rp).filter
      (fun f => f.pattern == "Suspicious Address") = [] := by
  rw [List.filter_eq_nil_iff]
  intro f hf
  obtain ⟨p, hp, hname⟩ := List.mem_map.mp (patFindings_name_mem ps content pn fb rp f hf)
  simp only [beq_iff_eq]
  rw [← hname]
  exact h p hp

/-- Dynamic IOC rules carry one of seven fixed names, whatever the IOC
lists contain. -/
theorem createDynamicPatterns_name_ne (iocs : IoCs) :
    ∀ p ∈ createDynamicPatterns iocs, p.name ≠ "Suspicious Address" := by
  intro p hp
  unfold createDynamicPatterns at hp
  simp only [List.mem_append] at hp
  rcases hp with ((((((hp | hp) | hp) | hp) | hp) | hp) | hp) <;>
    · split at hp
      · rw [List.mem_singleton.mp hp]
        simp
      · cases hp

/-- A `filterMap` with a guarded `some` is a filter followed by a map. -/
theorem filterMap_ite {α β : Type} (l : List α) (p : α → Bool) (g : α → β) :
    (l.filterMap fun a => if p a then some (g a) else none) =
      (l.filter p).map g := by
  induction l with
  | nil => rfl
  | cons h t ih =>
    by_cases hp : p h = true <;>
      simp [List.filterMap_cons, List.filter_cons, hp, ih]

/-- C3 (amended).  The membership check is independent of the
structural shape: `scanFileContent` emits exactly one finding of the
address-membership type (`Suspicious Address`) per structural address
occurrence that is on the suspicious list — and none at all when no
occurrence is listed.  (Structural occurrences off the list still
trigger the static `Crypto Address Replacement` signature, a separate
finding — see the counterexample.) -/
theorem address_membership_findings (content filePath projectPath : Str)
    (iocs : IoCs) (ppn : Option String) (mpp : Option Str) :
    ((scanFileContent content filePath projectPath iocs ppn mpp).filter
        (fun f => f.pattern == "Suspicious Address")).length =
      ((addressMatches content).filter
        (fun a => isSuspiciousAddress a iocs)).length ∧
    ((∀ a ∈ addressMatches content, isSuspiciousAddress a iocs = false) →
      (scanFileContent content filePath projectPath iocs ppn mpp).filter
        (fun f => f.pattern == "Suspicious Address") = []) := by
  have hA : ∀ pn fb rp, (patFindings initializePatterns content pn fb rp).filter
      (fun f => f.pattern == "Suspicious Address") = [] := by
    intro pn fb rp
    exact patFilter_nil initializePatterns content pn fb rp (by decide)
  have hB : ∀ pn fb rp,
      (patFindings (createDynamicPatterns iocs) content pn fb rp).filter
        (fun f => f.pattern == "Suspicious Address") = [] := by
    intro pn fb rp
    exact patFilter_nil (createDynamicPatterns iocs) content pn fb rp
      (createDynamicPatterns_name_ne iocs)
  have hC : ∀ pn fb, (addressFindings content iocs pn fb).filter
      (fun f => f.pattern == "Suspicious Address") =
      addressFindings content iocs pn fb := by
    intro pn fb
    rw [List.filter_eq_self]
    intro f hf
    obtain ⟨a, ha, hfa⟩ := List.mem_filterMap.mp hf
    split at hfa
    · cases hfa
      rfl
    · cases hfa
  have hCmap : ∀ pn fb, addressFindings content iocs pn fb =
      ((addressMatches content).filter
        (fun a => isSuspiciousAddress a iocs)).map
        (fun address =>
          ({ project := pn, file := fb, relativePath := none,
             pattern := "Suspicious Address", severity := "HIGH",
             description := "Suspicious crypto address found: " ++
               String.mk address,
             matchCount := 1,
             lines := [matchLine (jsSplit content (Char.ofNat 10)) address] } :
            Finding)) := by
    intro pn fb
    exact filterMap_ite (addressMatches content)
      (fun a => isSuspiciousAddress a iocs) _
  have key : (scanFileContent content filePath projectPath iocs ppn mpp).filter
      (fun f => f.pattern == "Suspicious Address") =
      addressFindings content iocs
        (ppn.getD (String.mk (jsBasename projectPath)))
        (String.mk (jsBasename filePath)) := by
    simp only [scanFileContent, List.filter_append, hA, hB, hC,
      List.nil_append]
  constructor
  · rw [key, hCmap, List.length_map]
  · intro h
    rw [key, hCmap]
    have : (addressMatches content).filter
        (fun a => isSuspiciousAddress a iocs) = [] := by
      rw [List.filter_eq_nil_iff]
      intro a ha
      rw [h a ha]
      decide
    rw [this]
    rfl

/-- The content consisting of one well-formed unlisted address. -/
def addrOnly : Str := lstr "0xaaaaaaaaaaaaaaaaaaaaaaaaaaaaaaaaaaaaaaaa"

/-- Witness for the amended C3 theorem: no membership findings when the
only structural address is not on the list. -/
theorem address_membership_findings_witness :
    (scanFileContent addrOnly (lstr "/p/a.js") (lstr "/p") {} none none).filter
      (fun f => f.pattern == "Suspicious Address") = [] :=
  (address_membership_findings addrOnly (lstr "/p/a.js") (lstr "/p") {}
    none none).2 (by decide)

/-- C3 (counterexample).  A file whose content is one syntactically
valid address NOT on the suspicious list does not produce zero
address-related findings: the structural address shape is itself the
static `Crypto Address Replacement` signature, which emits one HIGH
finding for the occurrence (while the membership check stays silent). -/
theorem address_not_listed_counterexample :
    addressMatches addrOnly = [addrOnly] ∧
    scanFileContent addrOnly (lstr "/p/a.js") (lstr "/p") {} none none =
      [{ project := "p", file := "a.js", relativePath := some "a.js",
         pattern := "Crypto Address Replacement", severity := "HIGH",
         description := "Detects hardcoded malicious Ethereum address used for fund theft",
         matchCount := 1, lines := [1] }] := by
  refine ⟨by decide, by decide⟩

end NpmScan